import Mathlib

/-!
Shallow embedding of the obsidian-mcp plugin core: the tool dispatcher
(`src/mcp/server.ts`), the HTTP transport server (`src/mcp/httpServer.ts`),
the simple-search tool (`src/mcp/tools/search.ts`) and the stdio bridge
process (`scripts/obsidian-mcp-bridge.js`), together with theorems checking
the specification's claims about them.

JavaScript strings are modelled as Lean `String`s (lists of characters);
machine numbers are `Nat`/`Int`; throwing code is modelled with
`Except String`; the external collaborators (the vault, `prepareSimpleSearch`,
`JSON.parse`) are parameters of the embedded functions.
-/

namespace OMCP

/-- Character-list test that `pre` is an initial segment of the second list;
used to model JavaScript `String.prototype.startsWith`. -/
def leadsWith : List Char → List Char → Bool
  | [], _ => true
  | _ :: _, [] => false
  | a :: as, b :: bs => a == b && leadsWith as bs

/-- Model of JavaScript `s.startsWith(p)`. -/
def strLeads (s p : String) : Bool :=
  leadsWith p.data s.data

/-- Model of JavaScript `s.substring(n)` / `s.slice(n)` on character counts. -/
def strDropChars (s : String) (n : Nat) : String :=
  String.mk (s.data.drop n)

/-- Content union produced by tool invocations (`src/mcp/base.ts`):
text, image or embedded resource. -/
inductive Content where
  | text (s : String)
  | image (url : String)
  | embeddedResource (url : String)
deriving DecidableEq

/-- Tool descriptor as exposed by `getToolDescription` (schema elided to the
identifying fields). -/
structure Tool where
  name : String
  description : String
deriving DecidableEq

/-- Untyped argument map handed to a tool handler. -/
abbrev ToolArgs : Type := List (String × String)

/-- Tool handler (`src/mcp/base.ts` `ToolHandler`): a name plus the `runTool`
invocation function, which may throw (modelled with `Except String`). -/
structure ToolHandler (α : Type) where
  name : String
  runTool : α → Except String (List Content)

/-- Lookup in the registry `Map` of `MCPServer` by exact name. -/
def lookupTool {α : Type} (tools : List (ToolHandler α)) (name : String) :
    Option (ToolHandler α) :=
  tools.find? (fun h => h.name = name)

/-- Registration (`MCPServer.registerTool`): `Map.set`, which overwrites an
existing entry in place (last wins) and otherwise appends in insertion order. -/
def registerTool {α : Type} (tools : List (ToolHandler α)) (h : ToolHandler α) :
    List (ToolHandler α) :=
  if tools.any (fun x => x.name = h.name) then
    tools.map (fun x => if x.name = h.name then h else x)
  else
    tools ++ [h]

/-- Embedding of `MCPServer.callTool` (`src/mcp/server.ts` lines 114-126):
look up the handler by exact name, throw `Unknown tool: <name>` when absent,
otherwise delegate to the handler; the catch block logs and rethrows, so the
handler's own failure is propagated unchanged. -/
def callTool {α : Type} (tools : List (ToolHandler α)) (name : String) (args : α) :
    Except String (List Content) :=
  match lookupTool tools name with
  | none => .error ("Unknown tool: " ++ name)
  | some h => h.runTool args

/-! HTTP transport server, `src/mcp/httpServer.ts`. -/

/-- Parsed body of a `POST /api/mcp/tools/call` request: `JSON.parse` result
with optional `name` and `arguments` fields; `none` at the outer level models
a body that is not valid JSON. -/
structure CallBody where
  name : Option String
  arguments : Option ToolArgs

/-- Inbound HTTP request as seen by the server callback. -/
structure HttpReq where
  method : String
  path : String
  authorization : Option String
  body : Option CallBody

/-- Dispatcher invocations performed while serving one request; used to state
that failed authentication reaches no route handler and no tool. -/
inductive Effect where
  | listTools
  | callTool (name : String) (args : ToolArgs)
  | health
deriving DecidableEq

/-- Response body: the JSON error object of `sendErrorResponse`, or one of the
success payloads of `sendJsonResponse`. -/
inductive RespBody where
  | empty
  | errorMsg (msg : String)
  | toolList (tools : List Tool)
  | contentResult (cs : List Content)
  | healthInfo
deriving DecidableEq

/-- HTTP response: status code plus JSON body. -/
structure HttpResp where
  status : Nat
  body : RespBody
deriving DecidableEq

/-- Embedding of `MCPHttpServer.sendErrorResponse`. -/
def sendErrorResponse (status : Nat) (msg : String) : HttpResp :=
  ⟨status, .errorMsg msg⟩

/-- Dispatcher collaborator of the HTTP server (the `MCPServer` instance):
the tool list and the `callTool` outcome function. -/
structure MCPDeps where
  toolsList : List Tool
  callToolFn : String → ToolArgs → Except String (List Content)

/-- Embedding of `MCPHttpServer.handleCallTool`: parse the body (a parse
failure is caught by the surrounding try and becomes a 500), reject a missing
or falsy `name` with 400, otherwise invoke the dispatcher and wrap the result;
a dispatcher failure becomes a 500 carrying the error message. -/
def handleCallToolRoute (mcp : MCPDeps) (req : HttpReq) : HttpResp × List Effect :=
  match req.body with
  | none => (sendErrorResponse 500 "Failed to call tool", [])
  | some b =>
    match b.name with
    | none => (sendErrorResponse 400 "Missing tool name", [])
    | some n =>
      if n = "" then (sendErrorResponse 400 "Missing tool name", [])
      else
        let args := b.arguments.getD []
        match mcp.callToolFn n args with
        | .ok cs => (⟨200, .contentResult cs⟩, [.callTool n args])
        | .error e => (sendErrorResponse 500 e, [.callTool n args])

/-- Embedding of the route dispatch of `MCPHttpServer.handleRequest`
(lines 103-112): exact method+path match over the three registered routes,
with 404 `Not found` for everything else. -/
def routeRequest (mcp : MCPDeps) (req : HttpReq) : HttpResp × List Effect :=
  if req.path = "/api/mcp/tools" ∧ req.method = "GET" then
    (⟨200, .toolList mcp.toolsList⟩, [.listTools])
  else if req.path = "/api/mcp/tools/call" ∧ req.method = "POST" then
    handleCallToolRoute mcp req
  else if req.path = "/api/mcp/health" ∧ req.method = "GET" then
    (⟨200, .healthInfo⟩, [.health])
  else
    (sendErrorResponse 404 "Not found", [])

/-- Embedding of `MCPHttpServer.handleRequest` (lines 85-113): an absent or
falsy `authorization` header, or one not starting with `Bearer `, is rejected
401 with the missing-header message; a `Bearer ` header whose token (the text
after the 7-character prefix) differs from the configured key is rejected 401
with `Invalid API key`; only then is the request routed. -/
def handleRequest (apiKey : String) (mcp : MCPDeps) (req : HttpReq) :
    HttpResp × List Effect :=
  let authHeader := req.authorization.getD ""
  if authHeader = "" ∨ ¬ strLeads authHeader "Bearer " then
    (sendErrorResponse 401 "Missing or invalid authorization header", [])
  else if strDropChars authHeader 7 ≠ apiKey then
    (sendErrorResponse 401 "Invalid API key", [])
  else
    routeRequest mcp req

/-- Embedding of the `http.createServer` callback (lines 30-49): CORS headers
are always set (not modelled), an `OPTIONS` preflight is answered 200 with no
body before any authentication, and every other request goes through
`handleRequest`. -/
def connectionHandler (apiKey : String) (mcp : MCPDeps) (req : HttpReq) :
    HttpResp × List Effect :=
  if req.method = "OPTIONS" then (⟨200, .empty⟩, [])
  else handleRequest apiKey mcp req

/-- Mutable lifecycle state of `MCPHttpServer`: the `isRunning` flag, whether
`this.server` is non-null, and the number of OS-level listening sockets the
object holds open. -/
structure ServerState where
  isRunning : Bool
  serverObj : Bool
  activeListeners : Nat
deriving DecidableEq

/-- Embedding of `MCPHttpServer.start` (lines 19-68): an already-running
server returns immediately with no change; otherwise `http.createServer`
assigns `this.server` and a successful `listen` marks the server running with
one more active listener, while a `listen` failure rejects and the error is
rethrown (the second component carries the thrown message). -/
def startServer (listenOk : Bool) (st : ServerState) : ServerState × Option String :=
  if st.isRunning then (st, none)
  else
    let st1 := { st with serverObj := true }
    if listenOk then
      ({ st1 with isRunning := true, activeListeners := st.activeListeners + 1 }, none)
    else
      (st1, some "Failed to start HTTP server")

/-- Embedding of `MCPHttpServer.stop` (lines 70-83): when not running or when
`this.server` is null it returns at once with no change; otherwise it closes
the listening socket, clears the flag and nulls the server. -/
def stopServer (st : ServerState) : ServerState :=
  if st.isRunning = false ∨ st.serverObj = false then st
  else { isRunning := false, serverObj := false, activeListeners := st.activeListeners - 1 }

/-! Simple-search tool, `src/mcp/tools/search.ts`. -/

/-- Vault file: path plus content; `content = none` models a file whose
`cachedRead` throws (caught per file, the file is skipped). -/
structure VFile where
  path : String
  content : Option (List Char)
deriving DecidableEq

/-- Result of the prepared matcher on one document: score and the list of
match spans `[start, stop)` in character offsets, mirroring the
`{score, matches}` object returned by `prepareSimpleSearch(query)(content)`;
`matchSpans` embeds the source field `matches` (a Lean keyword). -/
structure MatcherResult where
  score : Int
  matchSpans : List (Nat × Nat)
deriving DecidableEq

/-- Prepared search function over document content: `none` when the document
does not match. Abstracts the external `prepareSimpleSearch(query)`. -/
abbrev Matcher : Type := List Char → Option MatcherResult

/-- One reported match (`SearchMatch` in `search.ts`): the expanded context
slice and the match offsets relative to that slice; `mpStart`/`mpEnd` embed
the source fields `match_position.start`/`match_position.end`. -/
structure SearchMatch where
  context : List Char
  mpStart : Nat
  mpEnd : Nat
deriving DecidableEq

/-- One search result (`SearchResultItem` in `search.ts`); `matchItems` embeds
the source field `matches` (a Lean keyword). -/
structure SearchResultItem where
  filename : String
  score : Int
  matchItems : List SearchMatch
deriving DecidableEq

/-- Embedding of the match-expansion loop body (`search.ts` lines 103-111):
`start = Math.max(match[0] - contextLength, 0)` is truncated `Nat`
subtraction, `stop = Math.min(match[1] + contextLength, content.length)`, the
context is `content.slice(start, stop)`, and the relative positions subtract
`start`. -/
def expandMatch (contextLength : Nat) (content : List Char) (m : Nat × Nat) :
    SearchMatch :=
  let start := m.1 - contextLength
  let stop := min (m.2 + contextLength) content.length
  { context := (content.drop start).take (stop - start)
    mpStart := m.1 - start
    mpEnd := m.2 - start }

/-- Result item pushed for a matching file (`search.ts` lines 100-118). -/
def mkResultItem (contextLength : Nat) (f : VFile) (content : List Char)
    (r : MatcherResult) : SearchResultItem :=
  { filename := f.path
    score := r.score
    matchItems := r.matchSpans.map (expandMatch contextLength content) }

/-- Accumulated scan state: collected results and the `filesProcessed`
counter. -/
structure ScanState where
  results : List SearchResultItem
  filesProcessed : Nat
deriving DecidableEq

/-- Embedding of the inner per-batch loop (`search.ts` lines 87-133): every
examined file increments `filesProcessed` (the source increments before the
early-termination check, so the file at which the loop breaks still counts);
the break happens once `results.length >= maxResults`, the increment not
affecting `results`; a read failure is caught and the file skipped; a
matching file appends exactly one result item. -/
def processBatch (search : Matcher) (contextLength maxResults : Nat) :
    List VFile → ScanState → ScanState
  | [], st => st
  | f :: rest, st =>
    if st.results.length ≥ maxResults then ⟨st.results, st.filesProcessed + 1⟩
    else
      match f.content with
      | none =>
        processBatch search contextLength maxResults rest
          ⟨st.results, st.filesProcessed + 1⟩
      | some content =>
        match search content with
        | none =>
          processBatch search contextLength maxResults rest
            ⟨st.results, st.filesProcessed + 1⟩
        | some r =>
          processBatch search contextLength maxResults rest
            ⟨st.results ++ [mkResultItem contextLength f content r],
             st.filesProcessed + 1⟩

/-- Embedding of the outer batch loop (`search.ts` lines 84-142): after each
batch the scan stops when `results.length >= maxResults`; the between-batch
yield (`setTimeout 0`) has no observable effect on the state. -/
def processBatches (search : Matcher) (contextLength maxResults : Nat) :
    List (List VFile) → ScanState → ScanState
  | [], st => st
  | b :: bs, st =>
    let st1 := processBatch search contextLength maxResults b st
    if st1.results.length ≥ maxResults then st1
    else processBatches search contextLength maxResults bs st1

/-- Single-pass batching worker: `cur` is the current chunk reversed, `k` the
remaining capacity of the current chunk. -/
def chunksGo {α : Type} (n : Nat) : List α → List α → Nat → List (List α)
  | [], cur, _ => if cur.isEmpty then [] else [cur.reverse]
  | x :: xs, cur, k =>
    match k with
    | 0 => cur.reverse :: chunksGo n xs [x] (n - 1)
    | k' + 1 => chunksGo n xs (x :: cur) k'

/-- Grouping of the candidate list into fixed-size batches, modelling the
stride-`batchSize` indexing of the outer `for` loop. -/
def chunksOf {α : Type} (n : Nat) (l : List α) : List (List α) :=
  chunksGo n l [] n

/-- Stable descending insertion by score: the new element goes after every
element with a score at least as large. -/
def insertByScore (x : SearchResultItem) : List SearchResultItem → List SearchResultItem
  | [] => [x]
  | y :: ys => if x.score > y.score then x :: y :: ys else y :: insertByScore x ys

/-- Embedding of `results.sort((a, b) => b.score - a.score)`: a stable sort by
descending score (the host runtime's `Array.prototype.sort` is stable). -/
def sortByScoreDesc (l : List SearchResultItem) : List SearchResultItem :=
  l.foldl (fun acc x => insertByScore x acc) []

/-- Arguments object of the simple-search tool; `none` fields are absent. -/
structure SearchArgs where
  query : Option String
  context_length : Option Nat
  max_results : Option Nat
  max_files : Option Nat
deriving DecidableEq

/-- JavaScript defaulting idiom `args.x || d`: an absent argument or the falsy
value `0` both yield the default. -/
def jsOrDefault (v : Option Nat) (d : Nat) : Nat :=
  match v with
  | none => d
  | some n => if n = 0 then d else n

/-- Summary object of the search response (`search.ts` lines 151-158); the
wall-clock `search_time_ms` field is not modelled. -/
structure SearchSummary where
  query : String
  total_results : Nat
  files_processed : Nat
  total_files_in_vault : Nat
  truncated : Bool
deriving DecidableEq

/-- Payload of the single text content item returned by the search tool. -/
structure SearchOutput where
  summary : SearchSummary
  results : List SearchResultItem
deriving DecidableEq

/-- Embedding of `SearchToolHandler.runTool` (`search.ts` lines 58-167): falsy
`query` is rejected; `context_length`, `max_results`, `max_files` default via
`||`; candidates are truncated to `maxFiles`, scanned in batches of 10 with
early termination, sorted by descending score and truncated to `maxResults`;
`truncated` is literally `results.length > maxResults` computed on the
collected (pre-slice) list. -/
def runSearchTool (searchF : String → Matcher) (vault : List VFile)
    (args : SearchArgs) : Except String SearchOutput :=
  match args.query with
  | none => .error "query argument missing in arguments"
  | some q =>
    if q = "" then .error "query argument missing in arguments"
    else
      let contextLength := jsOrDefault args.context_length 100
      let maxResults := jsOrDefault args.max_results 20
      let maxFiles := jsOrDefault args.max_files 500
      let filesToSearch := vault.take maxFiles
      let st := processBatches (searchF q) contextLength maxResults
        (chunksOf 10 filesToSearch) ⟨[], 0⟩
      let sorted := sortByScoreDesc st.results
      let finalResults := sorted.take maxResults
      .ok
        { summary :=
            { query := q
              total_results := finalResults.length
              files_processed := st.filesProcessed
              total_files_in_vault := vault.length
              truncated := decide (st.results.length > maxResults) }
          results := finalResults }

/-- Scan state reached by `runSearchTool` before sorting; exposed so theorems
can speak about the collected results and the processed-file count. -/
def scanStateOf (searchF : String → Matcher) (vault : List VFile)
    (args : SearchArgs) : ScanState :=
  match args.query with
  | none => ⟨[], 0⟩
  | some q =>
    if q = "" then ⟨[], 0⟩
    else
      processBatches (searchF q) (jsOrDefault args.context_length 100)
        (jsOrDefault args.max_results 20)
        (chunksOf 10 (vault.take (jsOrDefault args.max_files 500))) ⟨[], 0⟩

/-- Linear restatement of the batched scan: the same early-terminating fold
over the flat candidate list, tracking only the collected results. -/
def scanList (search : Matcher) (contextLength maxResults : Nat) :
    List VFile → List SearchResultItem → List SearchResultItem
  | [], acc => acc
  | f :: rest, acc =>
    if acc.length ≥ maxResults then acc
    else
      match f.content with
      | none => scanList search contextLength maxResults rest acc
      | some content =>
        match search content with
        | none => scanList search contextLength maxResults rest acc
        | some r =>
          scanList search contextLength maxResults rest
            (acc ++ [mkResultItem contextLength f content r])

/-- Test that a file matches: content readable and matcher returns a hit. -/
def fileMatches (search : Matcher) (f : VFile) : Bool :=
  match f.content with
  | none => false
  | some c => (search c).isSome

/-- Number of matching documents in a candidate list. -/
def matchCount (search : Matcher) (files : List VFile) : Nat :=
  files.countP (fileMatches search)

/-! Stdio bridge process, `scripts/obsidian-mcp-bridge.js`. -/

/-- JSON-RPC id value: number, string, or JSON `null` (the field being present
with value `null` is distinct from the field being absent). -/
inductive JsonId where
  | num (n : Int)
  | str (s : String)
  | null
deriving DecidableEq

/-- Params object of `tools/call` / `prompts/get` requests. -/
structure RpcParams where
  name : Option String
  arguments : Option ToolArgs
deriving DecidableEq

/-- Decoded JSON-RPC request line; `id = none` models an absent id field
(JavaScript `undefined`). -/
structure RpcRequest where
  id : Option JsonId
  method : Option String
  params : Option RpcParams
deriving DecidableEq

/-- Prompt descriptor (`src/mcp/base.ts` `Prompt`). -/
structure Prompt where
  name : String
  description : Option String
deriving DecidableEq

/-- Result of a `prompts/get` call relayed by the bridge (the
`GetPromptResult` body, kept abstract as its description plus message text). -/
structure PromptResult where
  description : String
  messageText : String
deriving DecidableEq

/-- Result payloads the bridge can place in a JSON-RPC `result` field. -/
inductive RpcResult where
  | initializeInfo
  | toolsList (ts : List Tool)
  | promptsList (ps : List Prompt)
  | callResult (cs : List Content)
  | promptResult (r : PromptResult)
deriving DecidableEq

/-- Bridge environment: the tool and prompt lists cached at startup, plus the
outcome of the two synchronous HTTP calls the bridge can make. -/
structure BridgeEnv where
  tools : List Tool
  prompts : List Prompt
  callToolHttp : String → ToolArgs → Except String (List Content)
  getPromptHttp : String → ToolArgs → Except String PromptResult

/-- Embedding of `ObsidianMCPServer.handleRequest` (bridge lines 122-194):
falsy `method` throws; `initialize`, `tools/list`, `prompts/list` answer from
static or cached data; `tools/call` and `prompts/get` require a truthy
`params.name` and relay one HTTP call; `notifications/initialized` returns
`null` (modelled `none`); an unknown method throws. -/
def bridgeHandleRequest (env : BridgeEnv) (req : RpcRequest) :
    Except String (Option RpcResult) :=
  match req.method with
  | none => .error "Missing method in request"
  | some m =>
    if m = "" then .error "Missing method in request"
    else if m = "initialize" then .ok (some .initializeInfo)
    else if m = "tools/list" then .ok (some (.toolsList env.tools))
    else if m = "tools/call" then
      match req.params with
      | none => .error "Missing tool name in tools/call request"
      | some p =>
        match p.name with
        | none => .error "Missing tool name in tools/call request"
        | some n =>
          if n = "" then .error "Missing tool name in tools/call request"
          else
            match env.callToolHttp n (p.arguments.getD []) with
            | .ok cs => .ok (some (.callResult cs))
            | .error e => .error e
    else if m = "prompts/list" then .ok (some (.promptsList env.prompts))
    else if m = "prompts/get" then
      match req.params with
      | none => .error "Missing prompt name in prompts/get request"
      | some p =>
        match p.name with
        | none => .error "Missing prompt name in prompts/get request"
        | some n =>
          if n = "" then .error "Missing prompt name in prompts/get request"
          else
            match env.getPromptHttp n (p.arguments.getD []) with
            | .ok r => .ok (some (.promptResult r))
            | .error e => .error e
    else if m = "notifications/initialized" then .ok none
    else .error ("Unknown method: " ++ m)

/-- Frame written to standard output: a `result` response (id is the request
id, or JSON `null` when the id field was absent) or an `error` response with
code -32000 (written only when the request carried an id). -/
inductive OutFrame where
  | result (id : JsonId) (r : RpcResult)
  | rpcError (id : JsonId) (code : Int) (msg : String)
deriving DecidableEq

/-- Whitespace for the JavaScript `trim` check on an input line. -/
def isJsWhitespace (c : Char) : Bool :=
  c == ' ' || c == '\t' || c == '\n' || c == '\r'

/-- Test that `line.trim()` is falsy, i.e. the line is all whitespace. -/
def lineBlank (line : List Char) : Bool :=
  line.all isJsWhitespace

/-- Processing of one decoded request (bridge lines 223-258): a `null` handler
result (notification) writes nothing; a non-null result writes one response
frame whose id defaults to JSON `null` when absent; a thrown error writes one
error frame only when the request had an id, and otherwise only logs to the
error stream. The second component is the stderr log produced by the catch
branch. -/
def processParsed (env : BridgeEnv) (req : RpcRequest) :
    List OutFrame × List String :=
  match bridgeHandleRequest env req with
  | .ok none => ([], [])
  | .ok (some r) => ([.result (req.id.getD .null) r], [])
  | .error msg =>
    match req.id with
    | some i => ([.rpcError i (-32000) msg], [])
    | none => ([], ["Error processing invalid request: " ++ msg])

/-- Processing of one complete input line (bridge lines 216-260): whitespace
lines are skipped by the `trim` check; a line `JSON.parse` rejects is skipped
with a stderr log and no stdout output; otherwise the decoded request is
handled. `parse` abstracts `JSON.parse` (`none` models a thrown
`SyntaxError`). -/
def processLine (parse : List Char → Option RpcRequest) (env : BridgeEnv)
    (line : List Char) : List OutFrame × List String :=
  if lineBlank line then ([], [])
  else
    match parse line with
    | none => ([], ["Error processing invalid request"])
    | some req => processParsed env req

/-- Splitting a character buffer at newlines, modelling `buffer.split('\n')`:
always returns at least one piece, and one more piece per newline. -/
def splitNl : List Char → List (List Char)
  | [] => [[]]
  | c :: rest =>
    match splitNl rest with
    | [] => [[]]
    | h :: t => if c = '\n' then [] :: h :: t else (c :: h) :: t

/-- Standard-output frames produced by a list of complete lines. -/
def lineOuts (parse : List Char → Option RpcRequest) (env : BridgeEnv)
    (lines : List (List Char)) : List OutFrame :=
  lines.flatMap (fun l => (processLine parse env l).1)

/-- Embedding of one `data` callback of the main loop (bridge lines 209-262):
append the chunk to the buffer, split on newlines, keep the final (incomplete)
piece as the new buffer, and process each complete line in order. Returns the
new buffer and the stdout frames written. -/
def processChunk (parse : List Char → Option RpcRequest) (env : BridgeEnv)
    (buffer chunk : List Char) : List Char × List OutFrame :=
  let parts := splitNl (buffer ++ chunk)
  (parts.getLastD [], lineOuts parse env parts.dropLast)

/-- Whole-run model of the bridge main loop: fold `processChunk` over the
sequence of stdin chunks, starting from a given buffer, collecting all stdout
frames in order. -/
def runBridge (parse : List Char → Option RpcRequest) (env : BridgeEnv) :
    List (List Char) → List Char → List Char × List OutFrame
  | [], buffer => (buffer, [])
  | c :: cs, buffer =>
    let step := processChunk parse env buffer c
    let rest := runBridge parse env cs step.1
    (rest.1, step.2 ++ rest.2)

/-! Concrete fixtures used by witnesses and counterexamples. -/

/-- Character-list substring test used by the sample matcher. -/
def hasSub (needle : List Char) : List Char → Bool
  | [] => needle.isEmpty
  | c :: rest => leadsWith needle (c :: rest) || hasSub needle rest

/-- Index of the first occurrence of `needle`, if any. -/
def findSub (needle : List Char) : List Char → Option Nat
  | [] => if needle.isEmpty then some 0 else none
  | c :: rest =>
    if leadsWith needle (c :: rest) then some 0
    else (findSub needle rest).map (fun i => i + 1)

/-- Sample matcher standing in for the external `prepareSimpleSearch`: a
plain substring search reporting the first occurrence with score 0. -/
def simpleContains (q : String) : Matcher := fun content =>
  match findSub q.data content with
  | none => none
  | some i => some { score := 0, matchSpans := [(i, i + q.data.length)] }

/-- Two-file vault in which both documents contain the letter x. -/
def vaultTwo : List VFile :=
  [⟨"a.md", some ['x']⟩, ⟨"b.md", some ['x']⟩]

/-- Dispatcher fixture with no tools and an always-empty call outcome. -/
def mcpFx : MCPDeps :=
  { toolsList := [], callToolFn := fun _ _ => .ok [] }

/-- Tool registry fixture with one trivially succeeding handler named t1. -/
def registryFx : List (ToolHandler ToolArgs) :=
  [{ name := "t1", runTool := fun _ => .ok [] }]

/-- Bridge environment fixture with empty caches and trivially succeeding
HTTP calls. -/
def bridgeEnvFx : BridgeEnv :=
  { tools := []
    prompts := []
    callToolHttp := fun _ _ => .ok []
    getPromptHttp := fun _ _ => .ok ⟨"", ""⟩ }

/-- Parser fixture standing in for `JSON.parse`: the line consisting of the
single letter A decodes to a `tools/list` request with no id field; the line
B decodes to a `notifications/initialized` notification; the line C decodes
to an unknown-method request with no id; everything else is invalid. -/
def parseFx : List Char → Option RpcRequest := fun l =>
  if l = ['A'] then some ⟨none, some "tools/list", none⟩
  else if l = ['B'] then some ⟨none, some "notifications/initialized", none⟩
  else if l = ['C'] then some ⟨none, some "no/such/method", none⟩
  else none

/-- Failing authentication input of the transport server: the header is
absent, falsy, not of Bearer shape, or carries a token other than the key. -/
def badAuth (apiKey : String) (auth : Option String) : Prop :=
  match auth with
  | none => True
  | some s => s = "" ∨ strLeads s "Bearer " = false ∨ strDropChars s 7 ≠ apiKey

/-- Spec-side formula for the left edge of the expanded context:
`max(0, s - c)` over the integers. -/
def specCtxStart (s c : Nat) : Nat :=
  Int.toNat (max ((s : Int) - (c : Int)) 0)

/-- Spec-side formula for the right edge of the expanded context:
`min(L, e + c)`. -/
def specCtxStop (e c L : Nat) : Nat :=
  min (e + c) L

/-- Helper for describing newline splitting of concatenations: prepend a
carry onto the first piece of a split. -/
def consHead (x : List Char) : List (List Char) → List (List Char)
  | [] => []
  | h :: t => (x ++ h) :: t

/-- Output of the search tool on `vaultTwo` with query x and `max_results`
1: one result from the first file, two files processed, `truncated` false. -/
def outFx : SearchOutput :=
  { summary :=
      { query := "x"
        total_results := 1
        files_processed := 2
        total_files_in_vault := 2
        truncated := false }
    results :=
      [{ filename := "a.md"
         score := 0
         matchItems := [{ context := ['x'], mpStart := 0, mpEnd := 1 }] }] }

/-! Lemmas about the batched scan: correspondence with the linear scan,
collected-result counting, and the processed-file bound. -/

/-- Lemma: a scan starting at or above the result cap collects nothing. -/
theorem scanList_stop (search : Matcher) (cL maxR : Nat) (l : List VFile)
    (acc : List SearchResultItem) (h : maxR ≤ acc.length) :
    scanList search cL maxR l acc = acc := by
  cases l with
  | nil => rfl
  | cons f rest => simp [scanList, h]

/-- Lemma: the per-batch loop collects the same results as the linear scan
over the batch. -/
theorem processBatch_results (search : Matcher) (cL maxR : Nat)
    (batch : List VFile) (st : ScanState) :
    (processBatch search cL maxR batch st).results =
      scanList search cL maxR batch st.results := by
  induction batch generalizing st with
  | nil => rfl
  | cons f rest ih =>
    simp only [processBatch, scanList]
    by_cases h : st.results.length ≥ maxR
    · rw [if_pos h, if_pos h]
    · rw [if_neg h, if_neg h]
      split
      · exact ih _
      · split
        · exact ih _
        · exact ih _

/-- Lemma: a batch advances `filesProcessed` by at most its length. -/
theorem processBatch_filesProcessed (search : Matcher) (cL maxR : Nat)
    (batch : List VFile) (st : ScanState) :
    (processBatch search cL maxR batch st).filesProcessed ≤
      st.filesProcessed + batch.length := by
  induction batch generalizing st with
  | nil => simp [processBatch]
  | cons f rest ih =>
    simp only [processBatch, List.length_cons]
    by_cases h : st.results.length ≥ maxR
    · rw [if_pos h]
      simp
    · rw [if_neg h]
      split
      · exact le_trans (ih _) (by dsimp; omega)
      · split
        · exact le_trans (ih _) (by dsimp; omega)
        · exact le_trans (ih _) (by dsimp; omega)

/-- Lemma: the linear scan over a concatenation is the composition of the
scans. -/
theorem scanList_append (search : Matcher) (cL maxR : Nat)
    (l1 l2 : List VFile) (acc : List SearchResultItem) :
    scanList search cL maxR (l1 ++ l2) acc =
      scanList search cL maxR l2 (scanList search cL maxR l1 acc) := by
  induction l1 generalizing acc with
  | nil => rfl
  | cons f rest ih =>
    simp only [List.cons_append, scanList]
    by_cases h : acc.length ≥ maxR
    · rw [if_pos h, if_pos h, scanList_stop search cL maxR l2 acc h]
    · rw [if_neg h, if_neg h]
      split
      · exact ih _
      · split
        · exact ih _
        · exact ih _

/-- Lemma: the outer batch loop collects the same results as the linear scan
over the flattened batch list. -/
theorem processBatches_results (search : Matcher) (cL maxR : Nat)
    (bs : List (List VFile)) (st : ScanState) :
    (processBatches search cL maxR bs st).results =
      scanList search cL maxR bs.flatten st.results := by
  induction bs generalizing st with
  | nil => rfl
  | cons b bs ih =>
    simp only [processBatches, List.flatten_cons]
    rw [scanList_append]
    by_cases h : (processBatch search cL maxR b st).results.length ≥ maxR
    · rw [if_pos h]
      rw [processBatch_results] at h ⊢
      rw [scanList_stop search cL maxR bs.flatten _ h]
    · rw [if_neg h, ih, processBatch_results]

/-- Lemma: the whole scan advances `filesProcessed` by at most the number of
candidate files. -/
theorem processBatches_filesProcessed (search : Matcher) (cL maxR : Nat)
    (bs : List (List VFile)) (st : ScanState) :
    (processBatches search cL maxR bs st).filesProcessed ≤
      st.filesProcessed + bs.flatten.length := by
  induction bs generalizing st with
  | nil => simp [processBatches]
  | cons b bs ih =>
    simp only [processBatches, List.flatten_cons, List.length_append]
    by_cases h : (processBatch search cL maxR b st).results.length ≥ maxR
    · rw [if_pos h]
      have := processBatch_filesProcessed search cL maxR b st
      omega
    · rw [if_neg h]
      have h1 := ih (processBatch search cL maxR b st)
      have h2 := processBatch_filesProcessed search cL maxR b st
      omega

/-- Lemma: the batching worker emits every carried and remaining element in
order. -/
theorem flatten_chunksGo {α : Type} (n : Nat) (l : List α) :
    ∀ (cur : List α) (k : Nat),
      (chunksGo n l cur k).flatten = cur.reverse ++ l := by
  induction l with
  | nil =>
    intro cur k
    cases cur <;> simp [chunksGo]
  | cons x xs ih =>
    intro cur k
    cases k with
    | zero => simp [chunksGo, ih]
    | succ k' => simp [chunksGo, ih]

/-- Lemma: batching is a partition of the candidate list. -/
theorem flatten_chunksOf {α : Type} (n : Nat) (l : List α) :
    (chunksOf n l).flatten = l := by
  unfold chunksOf
  rw [flatten_chunksGo]
  simp

/-- Lemma: the linear scan collects `min maxR (already + matching)` results:
one per matching document until the cap is reached. -/
theorem scanList_length (search : Matcher) (cL maxR : Nat) (l : List VFile)
    (acc : List SearchResultItem) (h : acc.length ≤ maxR) :
    (scanList search cL maxR l acc).length =
      min maxR (acc.length + matchCount search l) := by
  induction l generalizing acc with
  | nil =>
    simp only [scanList, matchCount, List.countP_nil, Nat.add_zero]
    omega
  | cons f rest ih =>
    simp only [scanList]
    by_cases hge : acc.length ≥ maxR
    · rw [if_pos hge]
      have hx : acc.length = maxR := le_antisymm h hge
      rw [hx]
      exact (Nat.min_eq_left (Nat.le_add_right _ _)).symm
    · rw [if_neg hge]
      split
      · rename_i hc
        have hmc : matchCount search (f :: rest) = matchCount search rest := by
          simp [matchCount, List.countP_cons, fileMatches, hc]
        rw [hmc]
        exact ih acc h
      · rename_i content hc
        split
        · rename_i hs
          have hmc : matchCount search (f :: rest) = matchCount search rest := by
            simp [matchCount, List.countP_cons, fileMatches, hc, hs]
          rw [hmc]
          exact ih acc h
        · rename_i r hs
          have hmc : matchCount search (f :: rest) = matchCount search rest + 1 := by
            simp [matchCount, List.countP_cons, fileMatches, hc, hs]
          rw [hmc]
          have h1 : (acc ++ [mkResultItem cL f content r]).length ≤ maxR := by
            simp
            omega
          rw [ih _ h1]
          simp [List.length_append]
          omega

/-- Lemma: inserting by score adds one element. -/
theorem length_insertByScore (x : SearchResultItem) (l : List SearchResultItem) :
    (insertByScore x l).length = l.length + 1 := by
  induction l with
  | nil => rfl
  | cons y ys ih =>
    simp only [insertByScore]
    split <;> simp [ih]

/-- Lemma: membership in an insertion by score. -/
theorem mem_insertByScore (a x : SearchResultItem) (l : List SearchResultItem) :
    a ∈ insertByScore x l ↔ a = x ∨ a ∈ l := by
  induction l with
  | nil => simp [insertByScore]
  | cons y ys ih =>
    simp only [insertByScore]
    split
    · simp
    · simp [ih]
      tauto

/-- Lemma: the insertion-fold preserves total length. -/
theorem length_sortFold (l : List SearchResultItem) (acc : List SearchResultItem) :
    (l.foldl (fun acc x => insertByScore x acc) acc).length =
      acc.length + l.length := by
  induction l generalizing acc with
  | nil => simp
  | cons x xs ih =>
    simp only [List.foldl_cons, List.length_cons]
    rw [ih, length_insertByScore]
    omega

/-- Lemma: sorting by descending score preserves length. -/
theorem length_sortByScoreDesc (l : List SearchResultItem) :
    (sortByScoreDesc l).length = l.length := by
  unfold sortByScoreDesc
  rw [length_sortFold]
  simp

/-- Lemma: the insertion-fold preserves membership. -/
theorem mem_sortFold (l acc : List SearchResultItem) (a : SearchResultItem) :
    a ∈ l.foldl (fun acc x => insertByScore x acc) acc ↔ a ∈ acc ∨ a ∈ l := by
  induction l generalizing acc with
  | nil => simp
  | cons x xs ih =>
    simp only [List.foldl_cons]
    rw [ih]
    simp [mem_insertByScore]
    tauto

/-- Lemma: sorting by descending score preserves membership. -/
theorem mem_sortByScoreDesc (a : SearchResultItem) (l : List SearchResultItem) :
    a ∈ sortByScoreDesc l ↔ a ∈ l := by
  unfold sortByScoreDesc
  rw [mem_sortFold]
  simp

/-- Lemma: on a valid query the search tool returns the record built from the
scan state, the sort and the final `slice`. -/
theorem runSearchTool_eq (searchF : String → Matcher) (vault : List VFile)
    (args : SearchArgs) (q : String) (hq : args.query = some q) (hne : q ≠ "") :
    runSearchTool searchF vault args = .ok
      { summary :=
          { query := q
            total_results :=
              ((sortByScoreDesc (scanStateOf searchF vault args).results).take
                (jsOrDefault args.max_results 20)).length
            files_processed := (scanStateOf searchF vault args).filesProcessed
            total_files_in_vault := vault.length
            truncated :=
              decide ((scanStateOf searchF vault args).results.length >
                jsOrDefault args.max_results 20) }
        results :=
          (sortByScoreDesc (scanStateOf searchF vault args).results).take
            (jsOrDefault args.max_results 20) } := by
  simp only [runSearchTool, scanStateOf, hq, if_neg hne]

/-! Claim theorems: dispatcher and server lifecycle. -/

/-- Claim C3: `callTool` on a name absent from the registry fails with the
`Unknown tool` error; on a registered name it never produces that dispatcher
error but delegates to the found handler, propagating whatever the handler
returns. -/
theorem C3_callTool_dispatch {α : Type} (tools : List (ToolHandler α))
    (name : String) (args : α) :
    (lookupTool tools name = none →
      callTool tools name args = .error ("Unknown tool: " ++ name)) ∧
    (∀ h : ToolHandler α, lookupTool tools name = some h →
      callTool tools name args = h.runTool args) := by
  constructor
  · intro h
    simp [callTool, h]
  · intro h hh
    simp [callTool, hh]

/-- Witness for C3 on a concrete one-handler registry: the unregistered name
nonexistent fails with `Unknown tool`, the registered name t1 delegates. -/
theorem C3_callTool_dispatch_witness :
    callTool registryFx "nonexistent" ([] : ToolArgs) =
      .error "Unknown tool: nonexistent" ∧
    callTool registryFx "t1" ([] : ToolArgs) = .ok [] :=
  ⟨(C3_callTool_dispatch registryFx "nonexistent" []).1 rfl,
   ((C3_callTool_dispatch registryFx "t1" []).2
      { name := "t1", runTool := fun _ => .ok [] } rfl).trans rfl⟩

/-- Claim C8: `start()` on an already-running server is a no-op; starting a
fresh server and starting again leaves exactly one active listener; `stop()`
when not running changes nothing and raises no error. -/
theorem C8_lifecycle :
    (∀ (st : ServerState) (ok : Bool), st.isRunning = true →
        startServer ok st = (st, none)) ∧
    (∀ st : ServerState, st.isRunning = false → st.activeListeners = 0 →
        (startServer true st).1.activeListeners = 1 ∧
        ∀ ok2 : Bool,
          startServer ok2 (startServer true st).1 = ((startServer true st).1, none)) ∧
    (∀ st : ServerState, st.isRunning = false → stopServer st = st) := by
  refine ⟨?_, ?_, ?_⟩
  · intro st ok h
    simp [startServer, h]
  · intro st h h0
    refine ⟨by simp [startServer, h, h0], ?_⟩
    intro ok2
    simp [startServer, h]
  · intro st h
    simp [stopServer, h]

/-- Witness for C8 at the fresh server state: a double start yields one
active listener and stop on the fresh state is the identity. -/
theorem C8_lifecycle_witness :
    (startServer true ⟨false, false, 0⟩).1.activeListeners = 1 ∧
    stopServer ⟨false, false, 0⟩ = ⟨false, false, 0⟩ :=
  ⟨(C8_lifecycle.2.1 ⟨false, false, 0⟩ rfl rfl).1,
   C8_lifecycle.2.2 ⟨false, false, 0⟩ rfl⟩

/-- Claim C2, amended: every non-OPTIONS request with a missing, malformed or
mismatched Authorization header receives 401 with the `Invalid API key` body
or the missing-header variant, and neither a route handler nor a tool is
invoked; OPTIONS preflight requests bypass authentication. -/
theorem C2_auth_rejection (apiKey : String) (mcp : MCPDeps) (req : HttpReq)
    (hm : req.method ≠ "OPTIONS") (hbad : badAuth apiKey req.authorization) :
    (connectionHandler apiKey mcp req).1.status = 401 ∧
    ((connectionHandler apiKey mcp req).1.body = .errorMsg "Invalid API key" ∨
     (connectionHandler apiKey mcp req).1.body =
       .errorMsg "Missing or invalid authorization header") ∧
    (connectionHandler apiKey mcp req).2 = [] := by
  unfold connectionHandler
  rw [if_neg hm]
  unfold handleRequest
  cases hauth : req.authorization with
  | none =>
    simp [sendErrorResponse]
  | some s =>
    rw [hauth] at hbad
    unfold badAuth at hbad
    by_cases h1 : s = "" ∨ ¬ strLeads s "Bearer " = true
    · simp only [Option.getD_some, if_pos h1]
      simp [sendErrorResponse]
    · have h3 : strDropChars s 7 ≠ apiKey := by
        push_neg at h1
        rcases hbad with h | h | h
        · exact absurd h h1.1
        · exact absurd h (by simpa using h1.2)
        · exact h
      simp only [Option.getD_some, if_neg h1, if_pos h3]
      simp [sendErrorResponse]

/-- Counterexample to C2 as stated: an OPTIONS request with no Authorization
header is answered 200 (the preflight branch precedes authentication), not
401, so the claimed rejection does not hold for all route/method
combinations. -/
theorem C2_auth_rejection_counterexample :
    connectionHandler "k" mcpFx ⟨"OPTIONS", "/api/mcp/tools", none, none⟩ =
      (⟨200, .empty⟩, []) ∧ (200 : Nat) ≠ 401 := by
  constructor
  · rfl
  · decide

/-- Witness for C2 at a concrete wrong-token request: GET /api/mcp/tools with
header Bearer wrong against key k is rejected 401 with no effects. -/
theorem C2_auth_rejection_witness :
    (connectionHandler "k" mcpFx ⟨"GET", "/api/mcp/tools", some "Bearer wrong", none⟩).1.status = 401 ∧
    ((connectionHandler "k" mcpFx ⟨"GET", "/api/mcp/tools", some "Bearer wrong", none⟩).1.body = .errorMsg "Invalid API key" ∨
     (connectionHandler "k" mcpFx ⟨"GET", "/api/mcp/tools", some "Bearer wrong", none⟩).1.body =
       .errorMsg "Missing or invalid authorization header") ∧
    (connectionHandler "k" mcpFx ⟨"GET", "/api/mcp/tools", some "Bearer wrong", none⟩).2 = [] :=
  C2_auth_rejection "k" mcpFx ⟨"GET", "/api/mcp/tools", some "Bearer wrong", none⟩
    (by decide) (Or.inr (Or.inr (by decide)))

/-- Claim C5: the transport server of `httpServer.ts` has no prompt routes:
an authenticated GET /api/mcp/prompts and an authenticated
POST /api/mcp/prompts/get both fall through the route dispatch to the 404
branch and reach no prompt operation, although `MCPServer` implements
`listPrompts`/`getPrompt` and the bridge calls exactly these paths. -/
theorem C5_prompts_route_missing :
    connectionHandler "k" mcpFx ⟨"GET", "/api/mcp/prompts", some "Bearer k", none⟩ =
      (sendErrorResponse 404 "Not found", []) ∧
    connectionHandler "k" mcpFx
        ⟨"POST", "/api/mcp/prompts/get", some "Bearer k",
          some ⟨some "obsidian-required-prompt", none⟩⟩ =
      (sendErrorResponse 404 "Not found", []) := by
  constructor
  · rfl
  · rfl

/-- Claim C4: the match item produced for a span `[s, e)` appears in the
result item, its context is the document slice from `max(0, s - c)` to
`min(L, e + c)`, and its relative positions subtract the left edge. -/
theorem C4_context_expansion (c : Nat) (content : List Char) (s e : Nat)
    (f : VFile) (r : MatcherResult) (hm : (s, e) ∈ r.matchSpans) :
    expandMatch c content (s, e) ∈ (mkResultItem c f content r).matchItems ∧
    (expandMatch c content (s, e)).context =
      (content.drop (specCtxStart s c)).take
        (specCtxStop e c content.length - specCtxStart s c) ∧
    (expandMatch c content (s, e)).mpStart = s - specCtxStart s c ∧
    (expandMatch c content (s, e)).mpEnd = e - specCtxStart s c := by
  have hs : specCtxStart s c = s - c := by
    unfold specCtxStart
    omega
  refine ⟨?_, ?_, ?_, ?_⟩
  · exact List.mem_map_of_mem _ hm
  · simp [expandMatch, hs, specCtxStop]
  · simp [expandMatch, hs]
  · simp [expandMatch, hs]

/-- Witness for C4 at the concrete match span `[3, 5)` of an 8-character
document with context length 2. -/
theorem C4_context_expansion_witness :
    expandMatch 2 "abcdefgh".data (3, 5) ∈
      (mkResultItem 2 ⟨"a.md", some "abcdefgh".data⟩ "abcdefgh".data
        ⟨0, [(3, 5)]⟩).matchItems ∧
    (expandMatch 2 "abcdefgh".data (3, 5)).context =
      ("abcdefgh".data.drop (specCtxStart 3 2)).take
        (specCtxStop 5 2 "abcdefgh".data.length - specCtxStart 3 2) ∧
    (expandMatch 2 "abcdefgh".data (3, 5)).mpStart = 3 - specCtxStart 3 2 ∧
    (expandMatch 2 "abcdefgh".data (3, 5)).mpEnd = 5 - specCtxStart 3 2 :=
  C4_context_expansion 2 "abcdefgh".data 3 5 ⟨"a.md", some "abcdefgh".data⟩
    ⟨0, [(3, 5)]⟩ (by decide)

/-- Claim C9: a falsy query (absent or empty) is rejected with the
query-missing error, and an explicit 0 for `context_length`, `max_results` or
`max_files` behaves exactly like an absent argument, whose defaults are 100,
20 and 500. -/
theorem C9_search_argument_defaults (searchF : String → Matcher)
    (vault : List VFile) :
    (∀ args : SearchArgs, args.query = none ∨ args.query = some "" →
        runSearchTool searchF vault args =
          .error "query argument missing in arguments") ∧
    (∀ args : SearchArgs,
        runSearchTool searchF vault { args with context_length := some 0 } =
          runSearchTool searchF vault { args with context_length := none }) ∧
    (∀ args : SearchArgs,
        runSearchTool searchF vault { args with max_results := some 0 } =
          runSearchTool searchF vault { args with max_results := none }) ∧
    (∀ args : SearchArgs,
        runSearchTool searchF vault { args with max_files := some 0 } =
          runSearchTool searchF vault { args with max_files := none }) ∧
    jsOrDefault none 100 = 100 ∧ jsOrDefault none 20 = 20 ∧
    jsOrDefault none 500 = 500 := by
  refine ⟨?_, ?_, ?_, ?_, rfl, rfl, rfl⟩
  · intro args h
    rcases h with h | h <;> simp [runSearchTool, h]
  all_goals intro args; rfl

/-- Witness for C9: empty query on the two-file vault is rejected, and a
zero `context_length` gives the same output as an absent one. -/
theorem C9_search_argument_defaults_witness :
    runSearchTool simpleContains vaultTwo ⟨some "", none, none, none⟩ =
      .error "query argument missing in arguments" ∧
    runSearchTool simpleContains vaultTwo ⟨some "x", some 0, none, none⟩ =
      runSearchTool simpleContains vaultTwo ⟨some "x", none, none, none⟩ :=
  ⟨(C9_search_argument_defaults simpleContains vaultTwo).1
      ⟨some "", none, none, none⟩ (Or.inr rfl),
   (C9_search_argument_defaults simpleContains vaultTwo).2.1
      ⟨some "x", some 0, none, none⟩⟩

/-- Claim C1, amended: on a valid query the result set has size
`min max_results K` where K counts the matching documents among the first
`max_files` candidates — so exactly `m` when `m < K` and exactly `K` when
`m ≥ K` — and `files_processed ≤ N`; but `truncated` is always false (the
early-terminating scan never collects more than `max_results` results, and
`truncated` compares the collected count against `max_results`), not true as
claimed for `m < K`. -/
theorem C1_search_result_counts (searchF : String → Matcher) (vault : List VFile)
    (args : SearchArgs) (q : String) (out : SearchOutput)
    (hq : args.query = some q) (hne : q ≠ "")
    (hout : runSearchTool searchF vault args = .ok out) :
    out.summary.total_results =
      min (jsOrDefault args.max_results 20)
        (matchCount (searchF q) (vault.take (jsOrDefault args.max_files 500))) ∧
    out.results.length =
      min (jsOrDefault args.max_results 20)
        (matchCount (searchF q) (vault.take (jsOrDefault args.max_files 500))) ∧
    out.summary.truncated = false ∧
    out.summary.files_processed ≤ vault.length := by
  rw [runSearchTool_eq searchF vault args q hq hne] at hout
  injection hout with hout
  subst hout
  have hscan : (scanStateOf searchF vault args).results =
      scanList (searchF q) (jsOrDefault args.context_length 100)
        (jsOrDefault args.max_results 20)
        (vault.take (jsOrDefault args.max_files 500)) [] := by
    simp only [scanStateOf, hq, if_neg hne]
    rw [processBatches_results, flatten_chunksOf]
  have hlen : (scanStateOf searchF vault args).results.length =
      min (jsOrDefault args.max_results 20)
        (matchCount (searchF q) (vault.take (jsOrDefault args.max_files 500))) := by
    rw [hscan, scanList_length _ _ _ _ _ (Nat.zero_le _)]
    simp
  have hsortlen : (sortByScoreDesc (scanStateOf searchF vault args).results).length =
      min (jsOrDefault args.max_results 20)
        (matchCount (searchF q) (vault.take (jsOrDefault args.max_files 500))) := by
    rw [length_sortByScoreDesc, hlen]
  have htake : (sortByScoreDesc (scanStateOf searchF vault args).results).take
      (jsOrDefault args.max_results 20) =
      sortByScoreDesc (scanStateOf searchF vault args).results :=
    List.take_of_length_le (by rw [hsortlen]; omega)
  refine ⟨?_, ?_, ?_, ?_⟩
  · show ((sortByScoreDesc (scanStateOf searchF vault args).results).take
      (jsOrDefault args.max_results 20)).length = _
    rw [htake, hsortlen]
  · show ((sortByScoreDesc (scanStateOf searchF vault args).results).take
      (jsOrDefault args.max_results 20)).length = _
    rw [htake, hsortlen]
  · show decide ((scanStateOf searchF vault args).results.length >
      jsOrDefault args.max_results 20) = false
    rw [hlen]
    simp only [decide_eq_false_iff_not]
    omega
  · show (scanStateOf searchF vault args).filesProcessed ≤ vault.length
    simp only [scanStateOf, hq, if_neg hne]
    have h1 := processBatches_filesProcessed (searchF q)
      (jsOrDefault args.context_length 100) (jsOrDefault args.max_results 20)
      (chunksOf 10 (vault.take (jsOrDefault args.max_files 500))) ⟨[], 0⟩
    rw [flatten_chunksOf] at h1
    have h2 : (vault.take (jsOrDefault args.max_files 500)).length ≤ vault.length := by
      rw [List.length_take]
      omega
    dsimp at h1
    omega

/-- Counterexample to C1 as stated: a two-file corpus where both files match
the query, with `max_results` 1: the result set has size 1 as claimed, but
`truncated` is false, although more matches existed (K = 2) than were kept
(m = 1). -/
theorem C1_search_result_counts_counterexample :
    (runSearchTool simpleContains vaultTwo ⟨some "x", none, some 1, none⟩).toOption.map
        (fun out => (out.summary.total_results, out.summary.truncated)) =
      some (1, false) ∧
    matchCount (simpleContains "x") vaultTwo = 2 ∧
    jsOrDefault (some 1) 20 = 1 := by
  refine ⟨?_, ?_, ?_⟩ <;> decide

/-- Witness for C1 on the two-file vault with `max_results` 1. -/
theorem C1_search_result_counts_witness :
    outFx.summary.total_results =
      min (jsOrDefault (some 1) 20)
        (matchCount (simpleContains "x") (vaultTwo.take (jsOrDefault none 500))) ∧
    outFx.results.length =
      min (jsOrDefault (some 1) 20)
        (matchCount (simpleContains "x") (vaultTwo.take (jsOrDefault none 500))) ∧
    outFx.summary.truncated = false ∧
    outFx.summary.files_processed ≤ vaultTwo.length :=
  C1_search_result_counts simpleContains vaultTwo ⟨some "x", none, some 1, none⟩
    "x" outFx rfl (by decide) rfl

/-- Claim C10: the collected results list never exceeds `max_results`: the
pre-batch and whole-scan invariants hold for every starting state below the
cap, and consequently the final `slice` removes nothing — the returned
results are exactly the sorted collected results, and every collected item
appears in the output. -/
theorem C10_results_bounded (search : Matcher) (cL maxR : Nat) :
    (∀ (batch : List VFile) (st : ScanState), st.results.length ≤ maxR →
        (processBatch search cL maxR batch st).results.length ≤ maxR) ∧
    (∀ (bs : List (List VFile)) (st : ScanState), st.results.length ≤ maxR →
        (processBatches search cL maxR bs st).results.length ≤ maxR) ∧
    (∀ (searchF : String → Matcher) (vault : List VFile) (args : SearchArgs)
        (q : String) (out : SearchOutput), args.query = some q → q ≠ "" →
        runSearchTool searchF vault args = .ok out →
        out.results = sortByScoreDesc (scanStateOf searchF vault args).results ∧
        ∀ x ∈ (scanStateOf searchF vault args).results, x ∈ out.results) := by
  refine ⟨?_, ?_, ?_⟩
  · intro batch st h
    rw [processBatch_results, scanList_length _ _ _ _ _ h]
    omega
  · intro bs st h
    rw [processBatches_results, scanList_length _ _ _ _ _ h]
    omega
  · intro searchF vault args q out hq hne hout
    rw [runSearchTool_eq searchF vault args q hq hne] at hout
    injection hout with hout
    subst hout
    have hscan : (scanStateOf searchF vault args).results =
        scanList (searchF q) (jsOrDefault args.context_length 100)
          (jsOrDefault args.max_results 20)
          (vault.take (jsOrDefault args.max_files 500)) [] := by
      simp only [scanStateOf, hq, if_neg hne]
      rw [processBatches_results, flatten_chunksOf]
    have hle : (scanStateOf searchF vault args).results.length ≤
        jsOrDefault args.max_results 20 := by
      rw [hscan, scanList_length _ _ _ _ _ (Nat.zero_le _)]
      omega
    have htake : (sortByScoreDesc (scanStateOf searchF vault args).results).take
        (jsOrDefault args.max_results 20) =
        sortByScoreDesc (scanStateOf searchF vault args).results :=
      List.take_of_length_le (by rw [length_sortByScoreDesc]; omega)
    refine ⟨htake, ?_⟩
    intro x hx
    show x ∈ (sortByScoreDesc (scanStateOf searchF vault args).results).take
      (jsOrDefault args.max_results 20)
    rw [htake, mem_sortByScoreDesc]
    exact hx

/-- Witness for C10: the invariant and the nothing-removed property at the
two-file vault with `max_results` 1. -/
theorem C10_results_bounded_witness :
    (processBatch (simpleContains "x") 100 1 vaultTwo ⟨[], 0⟩).results.length ≤ 1 ∧
    outFx.results =
      sortByScoreDesc
        (scanStateOf simpleContains vaultTwo ⟨some "x", none, some 1, none⟩).results :=
  ⟨(C10_results_bounded (simpleContains "x") 100 1).1 vaultTwo ⟨[], 0⟩ (by decide),
   ((C10_results_bounded (simpleContains "x") 100 1).2.2 simpleContains vaultTwo
      ⟨some "x", none, some 1, none⟩ "x" outFx rfl (by decide) rfl).1⟩

/-- Claim C6, amended: an input line with no id whose handling throws an
error produces no stdout frame (only a stderr log), and
`notifications/initialized` returns a null result and so never produces a
frame, with or without an id; but a no-id request whose method succeeds does
write one response frame, with id JSON `null`. -/
theorem C6_no_id_notifications (env : BridgeEnv) (req : RpcRequest) :
    (∀ msg, bridgeHandleRequest env req = .error msg → req.id = none →
        (processParsed env req).1 = []) ∧
    (bridgeHandleRequest env req = .ok none → (processParsed env req).1 = []) ∧
    (req.method = some "notifications/initialized" →
        bridgeHandleRequest env req = .ok none) ∧
    (∀ r, bridgeHandleRequest env req = .ok (some r) → req.id = none →
        (processParsed env req).1 = [.result .null r]) := by
  refine ⟨?_, ?_, ?_, ?_⟩
  · intro msg h hid
    simp [processParsed, h, hid]
  · intro h
    simp [processParsed, h]
  · intro h
    simp [bridgeHandleRequest, h]
  · intro r h hid
    simp [processParsed, h, hid]

/-- Counterexample to C6 as stated: a line decoding to a `tools/list` request
with no id field is not treated as a silent notification — the bridge writes
one response frame with id `null`. -/
theorem C6_no_id_notifications_counterexample :
    parseFx ['A'] = some ⟨none, some "tools/list", none⟩ ∧
    (processLine parseFx bridgeEnvFx ['A']).1 = [.result .null (.toolsList [])] := by
  constructor
  · rfl
  · rfl

/-- Witness for C6: a no-id unknown-method line produces no frame, and a
`notifications/initialized` request carrying an id also produces none. -/
theorem C6_no_id_notifications_witness :
    (processParsed bridgeEnvFx ⟨none, some "no/such/method", none⟩).1 = [] ∧
    (processParsed bridgeEnvFx
      ⟨some (.num 1), some "notifications/initialized", none⟩).1 = [] :=
  ⟨(C6_no_id_notifications bridgeEnvFx ⟨none, some "no/such/method", none⟩).1
      "Unknown method: no/such/method" rfl rfl,
   (C6_no_id_notifications bridgeEnvFx
      ⟨some (.num 1), some "notifications/initialized", none⟩).2.1
    ((C6_no_id_notifications bridgeEnvFx
      ⟨some (.num 1), some "notifications/initialized", none⟩).2.2.1 rfl)⟩

/-- Lemma: a newline split always has at least one piece. -/
theorem splitNl_ne_nil (l : List Char) : splitNl l ≠ [] := by
  induction l with
  | nil => simp [splitNl]
  | cons c rest ih =>
    cases h : splitNl rest with
    | nil => simp [splitNl, h]
    | cons x xs =>
      by_cases hc : c = '\n' <;> simp [splitNl, h, hc]

/-- Lemma: a newline-free buffer splits into itself alone. -/
theorem splitNl_no_newline (l : List Char) (h : '\n' ∉ l) : splitNl l = [l] := by
  induction l with
  | nil => rfl
  | cons c rest ih =>
    have hc : c ≠ '\n' := fun e => h (by simp [e])
    have hr : '\n' ∉ rest := fun e => h (List.mem_cons_of_mem _ e)
    simp [splitNl, ih hr, hc]

/-- Lemma: the default of `getLastD` is irrelevant on a nonempty list. -/
theorem getLastD_irrel {α : Type} (Y : List α) (hY : Y ≠ []) (d d' : α) :
    Y.getLastD d = Y.getLastD d' := by
  cases Y with
  | nil => exact absurd rfl hY
  | cons y ys => rw [List.getLastD_cons, List.getLastD_cons]

/-- Lemma: `getLastD` of an append with nonempty right part ignores the left
part. -/
theorem getLastD_append_right {α : Type} (X Y : List α) (hY : Y ≠ []) :
    ∀ d, (X ++ Y).getLastD d = Y.getLastD d := by
  induction X with
  | nil => intro d; rfl
  | cons x X ih =>
    intro d
    rw [List.cons_append, List.getLastD_cons, ih x]
    exact getLastD_irrel Y hY x d

/-- Lemma: the last piece of a newline split contains no newline. -/
theorem splitNl_getLastD_no_newline (l : List Char) :
    '\n' ∉ (splitNl l).getLastD [] := by
  induction l with
  | nil => simp [splitNl]
  | cons c rest ih =>
    cases h : splitNl rest with
    | nil => exact absurd h (splitNl_ne_nil rest)
    | cons x xs =>
      rw [h] at ih
      simp only [splitNl, h]
      by_cases hc : c = '\n'
      · rw [if_pos hc]
        rw [List.getLastD_cons]
        rwa [getLastD_irrel (x :: xs) (by simp) [] ]
      · rw [if_neg hc]
        cases xs with
        | nil =>
          rw [List.getLastD_cons] at ih ⊢
          simp only [List.getLastD] at ih ⊢
          intro hm
          rcases List.mem_cons.mp hm with he | hm2
          · exact hc he.symm
          · exact ih hm2
        | cons y ys =>
          rw [List.getLastD_cons] at ih ⊢
          rw [getLastD_irrel (y :: ys) (by simp) x []] at ih
          rwa [getLastD_irrel (y :: ys) (by simp) (c :: x) []]

/-- Lemma: splitting a concatenation splits the left part, then carries its
last piece into the split of the right part. -/
theorem splitNl_append (a b : List Char) :
    splitNl (a ++ b) =
      (splitNl a).dropLast ++ consHead ((splitNl a).getLastD []) (splitNl b) := by
  induction a with
  | nil =>
    cases hb : splitNl b with
    | nil => exact absurd hb (splitNl_ne_nil b)
    | cons h t => simp [splitNl, consHead, hb]
  | cons c a' ih =>
    cases ha : splitNl (a' ++ b) with
    | nil => exact absurd ha (splitNl_ne_nil _)
    | cons h t =>
      rw [ha] at ih
      cases ha' : splitNl a' with
      | nil => exact absurd ha' (splitNl_ne_nil _)
      | cons h' t' =>
        rw [ha'] at ih
        simp only [List.cons_append, splitNl, List.append_eq, ha, ha']
        by_cases hc : c = '\n'
        · rw [if_pos hc, if_pos hc]
          rw [List.getLastD_cons, List.dropLast_cons₂, List.cons_append, ih]
        · rw [if_neg hc, if_neg hc]
          cases t' with
          | nil =>
            cases hb : splitNl b with
            | nil => exact absurd hb (splitNl_ne_nil b)
            | cons hb1 tb =>
              rw [hb] at ih
              simp only [List.dropLast_single, List.nil_append, List.getLastD,
                consHead] at ih
              injection ih with ih1 ih2
              subst ih1
              subst ih2
              simp [consHead]
          | cons u t'' =>
            rw [List.dropLast_cons₂, List.getLastD_cons, List.cons_append] at ih ⊢
            rw [getLastD_irrel (u :: t'') (by simp) (c :: h') []]
            rw [getLastD_irrel (u :: t'') (by simp) h' []] at ih
            injection ih with ih1 ih2
            subst ih1
            rw [ih2]

/-- Lemma: the bridge main loop over any chunk sequence behaves like a single
pass over the concatenated input: the complete lines of the concatenation are
processed in order and the final piece stays in the buffer. -/
theorem runBridge_eq (parse : List Char → Option RpcRequest) (env : BridgeEnv)
    (chunks : List (List Char)) (buffer : List Char) (hb : '\n' ∉ buffer) :
    runBridge parse env chunks buffer =
      ((splitNl (buffer ++ chunks.flatten)).getLastD [],
       lineOuts parse env (splitNl (buffer ++ chunks.flatten)).dropLast) := by
  induction chunks generalizing buffer with
  | nil =>
    simp only [runBridge, List.flatten_nil, List.append_nil]
    rw [splitNl_no_newline buffer hb]
    simp [lineOuts]
  | cons c cs ih =>
    simp only [runBridge, processChunk, List.flatten_cons]
    have hb1 : '\n' ∉ (splitNl (buffer ++ c)).getLastD [] :=
      splitNl_getLastD_no_newline _
    rw [ih _ hb1]
    have key2 : splitNl ((splitNl (buffer ++ c)).getLastD [] ++ cs.flatten) =
        consHead ((splitNl (buffer ++ c)).getLastD []) (splitNl cs.flatten) := by
      rw [splitNl_append, splitNl_no_newline _ hb1]
      rfl
    have key : splitNl (buffer ++ (c ++ cs.flatten)) =
        (splitNl (buffer ++ c)).dropLast ++
          splitNl ((splitNl (buffer ++ c)).getLastD [] ++ cs.flatten) := by
      rw [← List.append_assoc, splitNl_append (buffer ++ c) cs.flatten, key2]
    rw [key]
    have hY : splitNl ((splitNl (buffer ++ c)).getLastD [] ++ cs.flatten) ≠ [] :=
      splitNl_ne_nil _
    rw [getLastD_append_right _ _ hY, List.dropLast_append_of_ne_nil _ hY]
    unfold lineOuts
    rw [List.flatMap_append]

/-- Claim C7, amended: a complete non-blank line that `JSON.parse` rejects is
skipped with no stdout output and one stderr log (a whitespace-only line is
skipped silently by the `trim` check before parsing); an invalid line leaves
the processing of every other line unchanged; and chunk boundaries are
immaterial — an incomplete trailing line is buffered and processed once
completed, so the whole run equals one pass over the concatenated input. -/
theorem C7_malformed_lines_and_buffering (parse : List Char → Option RpcRequest)
    (env : BridgeEnv) :
    (∀ line : List Char, parse line = none → lineBlank line = false →
        processLine parse env line = ([], ["Error processing invalid request"])) ∧
    (∀ (pre post : List (List Char)) (bad : List Char), parse bad = none →
        lineOuts parse env (pre ++ bad :: post) =
          lineOuts parse env pre ++ lineOuts parse env post) ∧
    (∀ (chunks : List (List Char)) (buffer : List Char), '\n' ∉ buffer →
        runBridge parse env chunks buffer =
          ((splitNl (buffer ++ chunks.flatten)).getLastD [],
           lineOuts parse env (splitNl (buffer ++ chunks.flatten)).dropLast)) := by
  refine ⟨?_, ?_, ?_⟩
  · intro line hp hbl
    simp [processLine, hp, hbl]
  · intro pre post bad hp
    unfold lineOuts
    rw [List.flatMap_append]
    have hbad : (processLine parse env bad).1 = [] := by
      unfold processLine
      by_cases hbl : lineBlank bad
      · simp [hbl]
      · simp [hbl, hp]
    simp [hbad]
  · intro chunks buffer hb
    exact runBridge_eq parse env chunks buffer hb

/-- Counterexample to C7 as stated: the empty line (two consecutive newlines)
is not valid JSON, yet it is skipped with no stderr log at all — the `trim`
check silences it before `JSON.parse` runs, so the claimed error logging does
not happen for every invalid line. -/
theorem C7_malformed_lines_counterexample :
    parseFx [] = none ∧ processLine parseFx bridgeEnvFx [] = ([], []) := by
  constructor
  · rfl
  · rfl

/-- Witness for C7: a concrete invalid line is skipped with a log, and a run
whose two chunks split one request line behaves like the concatenated pass. -/
theorem C7_malformed_lines_and_buffering_witness :
    processLine parseFx bridgeEnvFx ['Z'] =
      ([], ["Error processing invalid request"]) ∧
    runBridge parseFx bridgeEnvFx [['A'], ['\n']] [] =
      ((splitNl ([] ++ [['A'], ['\n']].flatten)).getLastD [],
       lineOuts parseFx bridgeEnvFx
         (splitNl ([] ++ [['A'], ['\n']].flatten)).dropLast) :=
  ⟨(C7_malformed_lines_and_buffering parseFx bridgeEnvFx).1 ['Z'] rfl rfl,
   (C7_malformed_lines_and_buffering parseFx bridgeEnvFx).2.2 [['A'], ['\n']] []
     (by decide)⟩

end OMCP
